import Mathlib

/-!
Shallow embedding of the todo CRUD backend (`src/server/main.py`,
`src/server/models.py`) and proofs about its query/filter and
partial-update semantics.

Modelling conventions:
* Timestamps (`createdAt`, `dueDate`, and parsed `dueBefore` values) are
  integers; comparisons between them mirror the datetime comparisons of
  the source.
* The store is the list of rows of the `todos` table in iteration order;
  `db.query(DBTodo)` scans it in that order.
* External date parsers (`dateutil.parser.isoparse` for the `dueBefore`
  query parameter, pydantic's datetime parsing for request bodies) are
  passed in as parameters of type `String → Option Int`; `none` models a
  parse failure (an exception in the source).
* Request bodies are modelled as decoded JSON objects
  (`List (String × JVal)`), so that the pydantic schema validation that
  FastAPI runs before a handler is explicit.
-/

/-- JSON value, as decoded from a request body. Numbers are modelled as
integers, which is enough for the properties considered here. -/
inductive JVal where
  | null
  | str (s : String)
  | bool (b : Bool)
  | num (n : Int)
  | arr (elems : List JVal)

/-- Validation error details, mirroring the `details`/pydantic error kinds
surfaced by the API. -/
inductive ValErr where
  /-- `VALIDATION_ERROR` with `details.field` set, raised for an invalid
  query parameter (`get_todos`, field `dueBefore`). -/
  | invalidQueryParam (field : String)
  /-- `VALIDATION_ERROR` "At least one field must be provided for update"
  (`update_todo`). -/
  | emptyUpdate
  /-- pydantic body-schema error on the named field (wrong type, length
  bounds, or a forbidden extra key). -/
  | invalidField (field : String)
deriving Repr, DecidableEq

/-- Error outcomes of a request. -/
inductive ApiError where
  | validationError (e : ValErr)
  | notFound
  /-- Unhandled server-side failure: a database constraint rejecting the
  commit (NOT NULL on `text`, primary-key uniqueness on `id`), surfaced
  as a 500. -/
  | serverError
deriving Repr, DecidableEq

/-- A stored todo row, per the `DBTodo` ORM model / `Todo` response model
of `src/server/models.py`. -/
structure Todo where
  id : String
  text : String
  completed : Bool
  dueDate : Option Int
  tags : List String
  createdAt : Int
deriving Repr, DecidableEq

/-- The todo store: rows of the `todos` table in iteration order. -/
abbrev Store := List Todo

/-- `generate_id` of `main.py`: the current clock in integer milliseconds,
formatted as a decimal string. -/
def generate_id (nowMs : Int) : String := toString nowMs

/-- Due-date predicate of `get_todos`: `dueDate IS NULL OR dueDate <= T`
(line 71 of `main.py`). -/
def dueMatches (T : Int) (t : Todo) : Bool :=
  match t.dueDate with
  | none => true
  | some d => d ≤ T

/-- Python `str.strip()` on a character list: drop leading and trailing
whitespace. (Python also strips a few exotic Unicode space characters
that `Char.isWhitespace` does not cover; no claim involves them.) -/
def trimChars (cs : List Char) : List Char :=
  ((cs.dropWhile Char.isWhitespace).reverse.dropWhile Char.isWhitespace).reverse

/-- Python `str.split(",")`: split the character list at every comma,
keeping empty segments, so that `"".split(",") == [""]` and
`",".split(",") == ["", ""]`. -/
def splitCharsOnComma : List Char → List (List Char)
  | [] => [[]]
  | c :: cs =>
    let rest := splitCharsOnComma cs
    if c = ',' then [] :: rest
    else
      match rest with
      | r :: rs => (c :: r) :: rs
      | [] => [[c]]

/-- Tag-list parsing of `get_todos` (line 92 of `main.py`):
`[tag.strip() for tag in tags.split(",") if tag.strip()]` — split on
commas, strip each element, drop elements that are empty after
stripping. -/
def splitTags (s : String) : List String :=
  (((splitCharsOnComma s.data).map trimChars).map String.mk).filter
    (fun t => t ≠ "")

/-- Tag filter of `get_todos` (line 93 of `main.py`): the row must contain
every requested tag (exact, case-sensitive string membership). -/
def hasAllTags (tagList : List String) (t : Todo) : Bool :=
  tagList.all (fun tag => t.tags.contains tag)

/-- One step of the stable descending sort: insert `x` after every
already-placed element whose `createdAt` is greater than or equal to
`x.createdAt`. -/
def insertTodoDesc (x : Todo) : List Todo → List Todo
  | [] => [x]
  | y :: ys =>
    if x.createdAt ≤ y.createdAt then y :: insertTodoDesc x ys
    else x :: y :: ys

/-- `todos.sort(key=lambda x: x.createdAt, reverse=True)` (line 96 of
`main.py`): Python's sort is stable, so among rows with equal `createdAt`
the input (store-iteration) order is preserved. Modelled as a stable
insertion sort by `createdAt` descending. -/
def sortByCreatedAtDesc (l : List Todo) : List Todo :=
  l.foldl (fun acc x => insertTodoDesc x acc) []

/-- `get_todos` of `main.py` (lines 47–98). `isoparse` stands for
`dateutil.parser.isoparse`. Python truthiness: a `None` or empty
`dueBefore`/`tags` parameter skips the corresponding filter. A read-only
operation: the store is not part of the result. -/
def get_todos (isoparse : String → Option Int) (store : Store)
    (dueBefore : Option String) (tags : Option String) :
    Except ApiError (List Todo) :=
  let step1 : Except ApiError (List Todo) :=
    match dueBefore with
    | none => .ok store
    | some s =>
      if s = "" then .ok store
      else
        match isoparse s with
        | some T => .ok (store.filter (dueMatches T))
        | none => .error (.validationError (.invalidQueryParam "dueBefore"))
  match step1 with
  | .error e => .error e
  | .ok todos =>
    let todos' :=
      match tags with
      | none => todos
      | some ts =>
        if ts = "" then todos
        else todos.filter (hasAllTags (splitTags ts))
    .ok (sortByCreatedAtDesc todos')

/-- `CreateTodoRequest` of `models.py` after pydantic validation:
`text` required with length in [1,500]; `dueDate` optional (default
null); `tags` optional (default empty list via `default_factory=list`). -/
structure CreateTodoRequest where
  text : String
  dueDate : Option Int
  tags : List String
deriving Repr, DecidableEq

/-- `UpdateTodoRequest` of `models.py` after pydantic validation. Every
field is `Optional` and the model is dumped with `exclude_unset=True`, so
for each field the outer `Option` records whether the key was present in
the request body, and the inner `Option` records an explicit JSON null
(pydantic accepts `null` for every `Optional` field, including `text`). -/
structure UpdateTodoRequest where
  text : Option (Option String)
  completed : Option (Option Bool)
  dueDate : Option (Option Int)
  tags : Option (Option (List String))
deriving Repr, DecidableEq

/-- `not update_data` check of `update_todo` (line 138 of `main.py`):
true when no field key was present in the request body. -/
def UpdateTodoRequest.isEmpty (r : UpdateTodoRequest) : Bool :=
  r.text.isNone && r.completed.isNone && r.dueDate.isNone && r.tags.isNone

/-- Helper for body validation: a JSON array all of whose elements are
strings (the `list[str]` pydantic type). -/
def allStrings : List JVal → Option (List String)
  | [] => some []
  | .str s :: rest =>
    match allStrings rest with
    | some ss => some (s :: ss)
    | none => none
  | _ :: _ => none

/-- The four declared fields of `UpdateTodoRequest`; any other key is
rejected because of `model_config = ConfigDict(extra="forbid")`. -/
def updateAllowedKeys : List String := ["text", "completed", "dueDate", "tags"]

/-- Field validation for `UpdateTodoRequest.text`: `Optional[str]` with
`min_length=1, max_length=500`. An explicit null is accepted (the
constraints only apply to the string branch of the `Optional`). -/
def vUpdText (body : List (String × JVal)) :
    Except ApiError (Option (Option String)) :=
  match body.lookup "text" with
  | none => .ok none
  | some .null => .ok (some none)
  | some (.str s) =>
    if 1 ≤ s.length ∧ s.length ≤ 500 then .ok (some (some s))
    else .error (.validationError (.invalidField "text"))
  | some _ => .error (.validationError (.invalidField "text"))

/-- Field validation for `UpdateTodoRequest.completed`: `Optional[bool]`.
Lax string/number coercions pydantic applies to `bool` values are not
modelled; no claim depends on them. -/
def vUpdCompleted (body : List (String × JVal)) :
    Except ApiError (Option (Option Bool)) :=
  match body.lookup "completed" with
  | none => .ok none
  | some .null => .ok (some none)
  | some (.bool b) => .ok (some (some b))
  | some _ => .error (.validationError (.invalidField "completed"))

/-- Field validation for `UpdateTodoRequest.dueDate`:
`Optional[datetime]`. `parseDT` stands for pydantic's datetime parsing of
strings; a JSON number is also accepted as a datetime (epoch timestamp),
as pydantic does. -/
def vUpdDueDate (parseDT : String → Option Int)
    (body : List (String × JVal)) : Except ApiError (Option (Option Int)) :=
  match body.lookup "dueDate" with
  | none => .ok none
  | some .null => .ok (some none)
  | some (.str s) =>
    match parseDT s with
    | some d => .ok (some (some d))
    | none => .error (.validationError (.invalidField "dueDate"))
  | some (.num n) => .ok (some (some n))
  | some _ => .error (.validationError (.invalidField "dueDate"))

/-- Field validation for `UpdateTodoRequest.tags`: `Optional[list[str]]`. -/
def vUpdTags (body : List (String × JVal)) :
    Except ApiError (Option (Option (List String))) :=
  match body.lookup "tags" with
  | none => .ok none
  | some .null => .ok (some none)
  | some (.arr xs) =>
    match allStrings xs with
    | some ss => .ok (some (some ss))
    | none => .error (.validationError (.invalidField "tags"))
  | some _ => .error (.validationError (.invalidField "tags"))

/-- Pydantic validation of an update request body (the `UpdateTodoRequest`
schema of `models.py`, run by FastAPI before `update_todo` executes).
Because of `extra="forbid"`, any key outside the four declared fields is
rejected; then each present field is validated by type. -/
def validateUpdateBody (parseDT : String → Option Int)
    (body : List (String × JVal)) : Except ApiError UpdateTodoRequest :=
  match body.find? (fun kv => !(updateAllowedKeys.contains kv.fst)) with
  | some kv => .error (.validationError (.invalidField kv.fst))
  | none =>
    match vUpdText body with
    | .error e => .error e
    | .ok text =>
      match vUpdCompleted body with
      | .error e => .error e
      | .ok completed =>
        match vUpdDueDate parseDT body with
        | .error e => .error e
        | .ok dueDate =>
          match vUpdTags body with
          | .error e => .error e
          | .ok tags =>
            .ok { text := text, completed := completed,
                  dueDate := dueDate, tags := tags }

/-- Field validation for `CreateTodoRequest.text`: required string with
length in [1,500] (the raw string, no trimming); a missing key, a null,
or a non-string value is a validation error. -/
def vCreateText (body : List (String × JVal)) : Except ApiError String :=
  match body.lookup "text" with
  | some (.str s) =>
    if 1 ≤ s.length ∧ s.length ≤ 500 then .ok s
    else .error (.validationError (.invalidField "text"))
  | some _ => .error (.validationError (.invalidField "text"))
  | none => .error (.validationError (.invalidField "text"))

/-- Field validation for `CreateTodoRequest.dueDate`:
`Optional[datetime] = None` — absent or null yields no due date. -/
def vCreateDueDate (parseDT : String → Option Int)
    (body : List (String × JVal)) : Except ApiError (Option Int) :=
  match body.lookup "dueDate" with
  | none => .ok none
  | some .null => .ok none
  | some (.str s) =>
    match parseDT s with
    | some d => .ok (some d)
    | none => .error (.validationError (.invalidField "dueDate"))
  | some (.num n) => .ok (some n)
  | some _ => .error (.validationError (.invalidField "dueDate"))

/-- Field validation for `CreateTodoRequest.tags`:
`list[str] = Field(default_factory=list)` — absent yields the empty
list; the field is not `Optional`, so an explicit null is rejected. -/
def vCreateTags (body : List (String × JVal)) :
    Except ApiError (List String) :=
  match body.lookup "tags" with
  | none => .ok []
  | some (.arr xs) =>
    match allStrings xs with
    | some ss => .ok ss
    | none => .error (.validationError (.invalidField "tags"))
  | some _ => .error (.validationError (.invalidField "tags"))

/-- Pydantic validation of a create request body (the `CreateTodoRequest`
schema of `models.py`). Extra keys are ignored (pydantic's default; this
model has no `extra="forbid"`). -/
def validateCreateBody (parseDT : String → Option Int)
    (body : List (String × JVal)) : Except ApiError CreateTodoRequest :=
  match vCreateText body with
  | .error e => .error e
  | .ok text =>
    match vCreateDueDate parseDT body with
    | .error e => .error e
    | .ok dueDate =>
      match vCreateTags body with
      | .error e => .error e
      | .ok tags => .ok { text := text, dueDate := dueDate, tags := tags }

/-- `db.query(DBTodo).filter(DBTodo.id == id).first()`: the first row of
the store whose `id` matches. -/
def findTodo (store : Store) (id : String) : Option Todo :=
  store.find? (fun t => t.id == id)

/-- In-place mutation of the first row matching `id` (the row object
returned by `.first()`), followed by `db.commit()`. -/
def updateFirst (f : Todo → Todo) (id : String) : Store → Store
  | [] => []
  | r :: rs => if r.id == id then f r :: rs else r :: updateFirst f id rs

/-- The `setattr` loop of `update_todo` (lines 147–148 of `main.py`)
followed by `db.commit()`. Setting a field to an explicit JSON null
assigns `None` to the row attribute; for `text` the `todos.text` column
is `nullable=False`, so the commit fails (an unhandled `IntegrityError`,
surfaced as a 500 server error). An explicit null on `completed` or
`tags` drives the row outside the `Todo` response model of `models.py`,
so such a request also fails server-side; it is modelled as the same
error outcome. On success, exactly the present fields are overwritten;
`createdAt` is not a field of `UpdateTodoRequest`, so it can never
appear in `update_data`. -/
def applyUpdate (t : Todo) (r : UpdateTodoRequest) : Except ApiError Todo :=
  match r.text with
  | some none => .error .serverError
  | rtext =>
    match r.completed with
    | some none => .error .serverError
    | rcompleted =>
      match r.tags with
      | some none => .error .serverError
      | rtags =>
        .ok { t with
          text := match rtext with | some (some s) => s | _ => t.text,
          completed :=
            match rcompleted with | some (some b) => b | _ => t.completed,
          dueDate := match r.dueDate with | none => t.dueDate | some v => v,
          tags := match rtags with | some (some ss) => ss | _ => t.tags }

/-- `update_todo` of `main.py` (lines 121–152), after body validation:
look up the row (`NotFound` if absent), then reject an empty field set,
then overwrite exactly the present fields and commit. On any error the
store is unchanged. -/
def update_todo (store : Store) (id : String) (r : UpdateTodoRequest) :
    Except ApiError Todo × Store :=
  match findTodo store id with
  | none => (.error .notFound, store)
  | some t =>
    if r.isEmpty then (.error (.validationError .emptyUpdate), store)
    else
      match applyUpdate t r with
      | .error e => (.error e, store)
      | .ok t' => (.ok t', updateFirst (fun _ => t') id store)

/-- `toggle_todo` of `main.py` (lines 171–186): look up the row
(`NotFound` if absent), flip `completed`, commit, return the row. -/
def toggle_todo (store : Store) (id : String) : Except ApiError Todo × Store :=
  match findTodo store id with
  | none => (.error .notFound, store)
  | some t =>
    let t' : Todo := { t with completed := !t.completed }
    (.ok t', updateFirst (fun _ => t') id store)

/-- `create_todo` of `main.py` (lines 101–118), after body validation:
build the new row with `id = generate_id()`, `completed = False`,
`createdAt = datetime.now()` and the request's `text`/`dueDate`/`tags`,
then `db.add` + `db.commit`. `id` is the primary key of the `todos`
table, so a commit with an already-present `id` fails (an unhandled
`IntegrityError`, surfaced as a server error) and the store is unchanged.
`nowMs` is `int(time.time() * 1000)` and `now` the `datetime.now()`
timestamp. -/
def create_todo (nowMs : Int) (now : Int) (store : Store)
    (req : CreateTodoRequest) : Except ApiError Todo × Store :=
  let newTodo : Todo :=
    { id := generate_id nowMs, text := req.text, completed := false,
      dueDate := req.dueDate, tags := req.tags, createdAt := now }
  if store.any (fun t => t.id == newTodo.id) then (.error .serverError, store)
  else (.ok newTodo, store ++ [newTodo])

/-- The PATCH `/api/todos/{id}` pipeline: FastAPI validates the body
against `UpdateTodoRequest` before the handler runs, so a schema error is
produced without consulting the store. -/
def updateEndpoint (parseDT : String → Option Int) (store : Store)
    (id : String) (body : List (String × JVal)) :
    Except ApiError Todo × Store :=
  match validateUpdateBody parseDT body with
  | .error e => (.error e, store)
  | .ok req => update_todo store id req

/-- The POST `/api/todos` pipeline: FastAPI validates the body against
`CreateTodoRequest` before the handler runs. -/
def createEndpoint (parseDT : String → Option Int) (nowMs now : Int)
    (store : Store) (body : List (String × JVal)) :
    Except ApiError Todo × Store :=
  match validateCreateBody parseDT body with
  | .error e => (.error e, store)
  | .ok req => create_todo nowMs now store req

theorem insertTodoDesc_cons_le (x y : Todo) (ys : List Todo)
    (h : x.createdAt ≤ y.createdAt) :
    insertTodoDesc x (y :: ys) = y :: insertTodoDesc x ys := by
  simp [insertTodoDesc, if_pos h]

theorem insertTodoDesc_cons_gt (x y : Todo) (ys : List Todo)
    (h : ¬ x.createdAt ≤ y.createdAt) :
    insertTodoDesc x (y :: ys) = x :: y :: ys := by
  simp [insertTodoDesc, if_neg h]

theorem mem_insertTodoDesc (z x : Todo) (l : List Todo) :
    z ∈ insertTodoDesc x l ↔ z = x ∨ z ∈ l := by
  induction l with
  | nil => simp [insertTodoDesc]
  | cons y ys ih =>
    by_cases h : x.createdAt ≤ y.createdAt
    · rw [insertTodoDesc_cons_le x y ys h]
      simp only [List.mem_cons, ih]
      tauto
    · rw [insertTodoDesc_cons_gt x y ys h]
      simp only [List.mem_cons]

theorem pairwise_insertTodoDesc (x : Todo) (l : List Todo)
    (hl : l.Pairwise (fun a b => b.createdAt ≤ a.createdAt)) :
    (insertTodoDesc x l).Pairwise (fun a b => b.createdAt ≤ a.createdAt) := by
  induction l with
  | nil => simp [insertTodoDesc]
  | cons y ys ih =>
    rcases List.pairwise_cons.mp hl with ⟨hy, hys⟩
    by_cases h : x.createdAt ≤ y.createdAt
    · rw [insertTodoDesc_cons_le x y ys h]
      refine List.pairwise_cons.mpr ⟨?_, ih hys⟩
      intro z hz
      rcases (mem_insertTodoDesc z x ys).mp hz with rfl | hz'
      · exact h
      · exact hy z hz'
    · rw [insertTodoDesc_cons_gt x y ys h]
      have h' : y.createdAt < x.createdAt := not_le.mp h
      refine List.pairwise_cons.mpr ⟨?_, hl⟩
      intro z hz
      rcases List.mem_cons.mp hz with rfl | hz'
      · exact le_of_lt h'
      · exact le_trans (hy z hz') (le_of_lt h')

theorem filter_insertTodoDesc (c : Int) (x : Todo) (l : List Todo)
    (hl : l.Pairwise (fun a b => b.createdAt ≤ a.createdAt)) :
    (insertTodoDesc x l).filter (fun t => t.createdAt == c) =
      l.filter (fun t => t.createdAt == c) ++
        (if x.createdAt = c then [x] else []) := by
  induction l with
  | nil =>
    by_cases hx : x.createdAt = c <;>
      simp [insertTodoDesc, List.filter_cons, hx]
  | cons y ys ih =>
    rcases List.pairwise_cons.mp hl with ⟨hy, hys⟩
    by_cases h : x.createdAt ≤ y.createdAt
    · rw [insertTodoDesc_cons_le x y ys h, List.filter_cons, List.filter_cons,
        ih hys]
      by_cases hyc : y.createdAt = c <;> simp [hyc]
    · rw [insertTodoDesc_cons_gt x y ys h]
      have h' : y.createdAt < x.createdAt := not_le.mp h
      by_cases hx : x.createdAt = c
      · have hnil : (y :: ys).filter (fun t => t.createdAt == c) = [] := by
          rw [List.filter_eq_nil_iff]
          intro a ha
          have hak : a.createdAt ≤ y.createdAt := by
            rcases List.mem_cons.mp ha with rfl | ha'
            · exact le_refl _
            · exact hy a ha'
          simp only [beq_iff_eq]
          omega
        rw [List.filter_cons, hnil]
        simp [hx]
      · rw [List.filter_cons]
        simp [hx]

theorem perm_insertTodoDesc (x : Todo) (l : List Todo) :
    List.Perm (insertTodoDesc x l) (x :: l) := by
  induction l with
  | nil => simp [insertTodoDesc]
  | cons y ys ih =>
    by_cases h : x.createdAt ≤ y.createdAt
    · rw [insertTodoDesc_cons_le x y ys h]
      exact (ih.cons y).trans (List.Perm.swap x y ys)
    · rw [insertTodoDesc_cons_gt x y ys h]

theorem sortAux_pairwise (l acc : List Todo)
    (hacc : acc.Pairwise (fun a b => b.createdAt ≤ a.createdAt)) :
    (l.foldl (fun a x => insertTodoDesc x a) acc).Pairwise
      (fun a b => b.createdAt ≤ a.createdAt) := by
  induction l generalizing acc with
  | nil => exact hacc
  | cons x xs ih => exact ih _ (pairwise_insertTodoDesc x acc hacc)

theorem sortAux_filter (c : Int) (l acc : List Todo)
    (hacc : acc.Pairwise (fun a b => b.createdAt ≤ a.createdAt)) :
    (l.foldl (fun a x => insertTodoDesc x a) acc).filter
        (fun t => t.createdAt == c) =
      acc.filter (fun t => t.createdAt == c) ++
        l.filter (fun t => t.createdAt == c) := by
  induction l generalizing acc with
  | nil => simp
  | cons x xs ih =>
    rw [List.foldl_cons, ih _ (pairwise_insertTodoDesc x acc hacc),
      filter_insertTodoDesc c x acc hacc, List.filter_cons]
    by_cases hx : x.createdAt = c <;> simp [hx]

theorem sortAux_perm (l acc : List Todo) :
    List.Perm (l.foldl (fun a x => insertTodoDesc x a) acc) (acc ++ l) := by
  induction l generalizing acc with
  | nil => simp
  | cons x xs ih =>
    rw [List.foldl_cons]
    refine (ih _).trans ?_
    refine ((perm_insertTodoDesc x acc).append_right xs).trans ?_
    exact List.perm_middle.symm

theorem sortByCreatedAtDesc_pairwise (l : List Todo) :
    (sortByCreatedAtDesc l).Pairwise (fun a b => b.createdAt ≤ a.createdAt) :=
  sortAux_pairwise l [] List.Pairwise.nil

theorem sortByCreatedAtDesc_filter (c : Int) (l : List Todo) :
    (sortByCreatedAtDesc l).filter (fun t => t.createdAt == c) =
      l.filter (fun t => t.createdAt == c) := by
  have h := sortAux_filter c l [] List.Pairwise.nil
  simpa [sortByCreatedAtDesc] using h

theorem sortByCreatedAtDesc_perm (l : List Todo) :
    List.Perm (sortByCreatedAtDesc l) l := by
  have h := sortAux_perm l []
  simpa [sortByCreatedAtDesc] using h

theorem mem_sortByCreatedAtDesc (z : Todo) (l : List Todo) :
    z ∈ sortByCreatedAtDesc l ↔ z ∈ l :=
  (sortByCreatedAtDesc_perm l).mem_iff

theorem dueMatches_iff (T : Int) (t : Todo) :
    dueMatches T t = true ↔
      (t.dueDate = none ∨ ∃ d, t.dueDate = some d ∧ d ≤ T) := by
  cases h : t.dueDate <;> simp [dueMatches, h]

theorem hasAllTags_iff (tl : List String) (t : Todo) :
    hasAllTags tl t = true ↔ ∀ tag ∈ tl, tag ∈ t.tags := by
  simp only [hasAllTags, List.all_eq_true]
  constructor
  · intro h tag htag
    exact List.elem_iff.mp (h tag htag)
  · intro h tag htag
    exact List.elem_iff.mpr (h tag htag)

theorem splitTags_empty : splitTags "" = [] := rfl

/-- Runs of `get_todos` with the same effective tag list coincide. -/
theorem get_todos_tags_congr (isoparse : String → Option Int) (st : Store)
    (ts₁ ts₂ : String) (h1 : ts₁ ≠ "") (h2 : ts₂ ≠ "")
    (h : splitTags ts₁ = splitTags ts₂) :
    get_todos isoparse st none (some ts₁) =
      get_todos isoparse st none (some ts₂) := by
  simp [get_todos, h1, h2, h]

/-- C1, amended: for a list call with a NON-EMPTY `dueBefore` string, an
unparseable value fails with a `ValidationError` on query field
`dueBefore`, and a parseable value `T` yields exactly the stored records
whose `dueDate` is absent or at most `T`; records without a due date are
always included. (`get_todos` is read-only, so no store mutation can
occur.) The claim as frozen is refuted by `C1_counterexample`: an empty
`dueBefore` string is falsy in Python, so the handler treats it as
absent instead of failing. -/
theorem C1_dueBefore_filter (isoparse : String → Option Int) (store : Store)
    (s : String) (hs : s ≠ "") :
    (isoparse s = none →
      get_todos isoparse store (some s) none =
        .error (.validationError (.invalidQueryParam "dueBefore"))) ∧
    (∀ T, isoparse s = some T →
      ∃ l, get_todos isoparse store (some s) none = .ok l ∧
        ∀ r, r ∈ l ↔
          r ∈ store ∧ (r.dueDate = none ∨ ∃ d, r.dueDate = some d ∧ d ≤ T)) := by
  constructor
  · intro hp
    simp [get_todos, hs, hp]
  · intro T hp
    refine ⟨sortByCreatedAtDesc (store.filter (dueMatches T)), ?_, ?_⟩
    · simp [get_todos, hs, hp]
    · intro r
      rw [mem_sortByCreatedAtDesc, List.mem_filter, dueMatches_iff]

/-- Sample parse function: parses exactly one date string, as a stand-in
for `dateutil.parser.isoparse` on a run where that is the only date
mentioned. -/
def isoSample : String → Option Int :=
  fun s => if s = "2099-01-01" then some 100 else none

def sampleNoDue : Todo :=
  { id := "1", text := "buy milk", completed := false, dueDate := none,
    tags := ["work", "urgent"], createdAt := 5 }

def sampleDueEarly : Todo :=
  { id := "2", text := "write report", completed := true, dueDate := some 50,
    tags := ["work"], createdAt := 7 }

def sampleDueLate : Todo :=
  { id := "3", text := "call dentist", completed := false, dueDate := some 200,
    tags := ["urgent"], createdAt := 7 }

/-- Witness for C1: on a concrete store, filtering by the parseable date
keeps exactly the record with no due date and the one due earlier. -/
theorem C1_witness :
    ∃ l, get_todos isoSample [sampleNoDue, sampleDueEarly, sampleDueLate]
        (some "2099-01-01") none = .ok l ∧
      ∀ r, r ∈ l ↔
        r ∈ [sampleNoDue, sampleDueEarly, sampleDueLate] ∧
          (r.dueDate = none ∨ ∃ d, r.dueDate = some d ∧ d ≤ 100) :=
  (C1_dueBefore_filter isoSample [sampleNoDue, sampleDueEarly, sampleDueLate]
    "2099-01-01" (by decide)).2 100 rfl

/-- Counterexample to C1 as frozen: `dueBefore` is supplied as the empty
string, the parser fails on it (as `dateutil.parser.isoparse("")` raises),
yet the operation succeeds instead of failing with a `ValidationError`,
because `if dueBefore:` treats the empty string as absent. -/
theorem C1_counterexample :
    (fun _ : String => (none : Option Int)) "" = none ∧
    get_todos (fun _ => none) [sampleNoDue] (some "") none =
      .ok [sampleNoDue] := ⟨rfl, rfl⟩

/-- C2: when the parsed tag list is non-empty, a record is listed exactly
when its stored tags contain every requested tag; and a tags string with
surrounding whitespace and empty segments behaves like the plain one. -/
theorem C2_tags_filter (isoparse : String → Option Int) (store : Store)
    (ts : String) (hne : splitTags ts ≠ []) :
    (∃ l, get_todos isoparse store none (some ts) = .ok l ∧
      ∀ r, r ∈ l ↔ r ∈ store ∧ ∀ tag ∈ splitTags ts, tag ∈ r.tags) ∧
    (∀ st : Store, get_todos isoparse st none (some "a, b, ") =
      get_todos isoparse st none (some "a,b")) := by
  have hts : ts ≠ "" := by
    intro h
    rw [h] at hne
    exact hne splitTags_empty
  constructor
  · refine ⟨sortByCreatedAtDesc (store.filter (hasAllTags (splitTags ts))),
      ?_, ?_⟩
    · simp [get_todos, hts]
    · intro r
      rw [mem_sortByCreatedAtDesc, List.mem_filter, hasAllTags_iff]
  · intro st
    exact get_todos_tags_congr isoparse st _ _ (by decide) (by decide)
      (by decide)

/-- Witness for C2: requesting tags "work,urgent" returns exactly records
tagged with both. -/
theorem C2_witness :
    ∃ l, get_todos isoSample [sampleNoDue, sampleDueEarly, sampleDueLate]
        none (some "work,urgent") = .ok l ∧
      ∀ r, r ∈ l ↔
        r ∈ [sampleNoDue, sampleDueEarly, sampleDueLate] ∧
          ∀ tag ∈ splitTags "work,urgent", tag ∈ r.tags :=
  (C2_tags_filter isoSample [sampleNoDue, sampleDueEarly, sampleDueLate]
    "work,urgent" (by decide)).1

/-- C3: any successful list result is sorted by `createdAt` descending,
and for each `createdAt` value the tied records appear in store
(iteration) order — the sort is stable, so the tie order is deterministic
for a given store state. -/
theorem C3_sorted_desc (isoparse : String → Option Int) (store : Store)
    (dueBefore tags : Option String) (l : List Todo)
    (h : get_todos isoparse store dueBefore tags = .ok l) :
    l.Pairwise (fun a b => b.createdAt ≤ a.createdAt) ∧
    ∀ c : Int, (l.filter (fun t => t.createdAt == c)).Sublist
      (store.filter (fun t => t.createdAt == c)) := by
  obtain ⟨m, hm, rfl⟩ : ∃ m, m.Sublist store ∧ l = sortByCreatedAtDesc m := by
    rcases dueBefore with _ | s
    · rcases tags with _ | ts
      · refine ⟨store, List.Sublist.refl store, ?_⟩
        simp [get_todos, Except.ok.injEq] at h
        exact h.symm
      · by_cases hts : ts = ""
        · refine ⟨store, List.Sublist.refl store, ?_⟩
          simp [get_todos, hts, if_pos, Except.ok.injEq] at h
          exact h.symm
        · refine ⟨store.filter (hasAllTags (splitTags ts)),
            List.filter_sublist store, ?_⟩
          simp [get_todos, hts, if_neg, Except.ok.injEq] at h
          exact h.symm
    · by_cases hsz : s = ""
      · rcases tags with _ | ts
        · refine ⟨store, List.Sublist.refl store, ?_⟩
          simp [get_todos, hsz, if_pos, Except.ok.injEq] at h
          exact h.symm
        · by_cases hts : ts = ""
          · refine ⟨store, List.Sublist.refl store, ?_⟩
            simp [get_todos, hsz, hts, if_pos, Except.ok.injEq] at h
            exact h.symm
          · refine ⟨store.filter (hasAllTags (splitTags ts)),
              List.filter_sublist store, ?_⟩
            simp [get_todos, hsz, hts, Except.ok.injEq] at h
            exact h.symm
      · rcases hp : isoparse s with _ | T
        · exfalso
          simp [get_todos, hsz, hp] at h
        · rcases tags with _ | ts
          · refine ⟨store.filter (dueMatches T),
              List.filter_sublist store, ?_⟩
            simp [get_todos, hsz, hp, Except.ok.injEq] at h
            exact h.symm
          · by_cases hts : ts = ""
            · refine ⟨store.filter (dueMatches T),
                List.filter_sublist store, ?_⟩
              simp [get_todos, hsz, hp, hts, Except.ok.injEq] at h
              exact h.symm
            · refine ⟨store.filter
                  (fun a => hasAllTags (splitTags ts) a && dueMatches T a),
                List.filter_sublist store, ?_⟩
              simp [get_todos, hsz, hp, hts, Except.ok.injEq] at h
              exact h.symm
  refine ⟨sortByCreatedAtDesc_pairwise m, ?_⟩
  intro c
  rw [sortByCreatedAtDesc_filter]
  exact hm.filter _

/-- Witness for C3: a concrete list call is sorted descending with ties
in store order. -/
theorem C3_witness :
    ([sampleDueEarly, sampleDueLate, sampleNoDue].Pairwise
      (fun a b => b.createdAt ≤ a.createdAt)) ∧
    ∀ c : Int,
      (([sampleDueEarly, sampleDueLate, sampleNoDue].filter
        (fun t => t.createdAt == c))).Sublist
      (([sampleNoDue, sampleDueEarly, sampleDueLate].filter
        (fun t => t.createdAt == c))) :=
  C3_sorted_desc isoSample [sampleNoDue, sampleDueEarly, sampleDueLate]
    none none _ rfl

/-- C4: for every update whose body passed schema validation, the
existence check runs before the empty-payload check: a missing id yields
`NotFound` even for a zero-field request, and an existing id with a
zero-field request yields the empty-update `ValidationError`; in both
cases the store is unchanged. -/
theorem C4_update_precedence (store : Store) (id : String)
    (req : UpdateTodoRequest) :
    (findTodo store id = none →
      update_todo store id req = (.error .notFound, store)) ∧
    (∀ t, findTodo store id = some t → req.isEmpty = true →
      update_todo store id req =
        (.error (.validationError .emptyUpdate), store)) := by
  constructor
  · intro h
    simp [update_todo, h]
  · intro t h he
    simp [update_todo, h, he]

/-- The update request with no field present. -/
def emptyUpd : UpdateTodoRequest :=
  { text := none, completed := none, dueDate := none, tags := none }

/-- Witness for C4: a zero-field update on a missing id is `NotFound`, and
on an existing id it is the empty-update validation error. -/
theorem C4_witness :
    update_todo [] "1" emptyUpd = (.error .notFound, []) ∧
    update_todo [sampleNoDue] "1" emptyUpd =
      (.error (.validationError .emptyUpdate), [sampleNoDue]) :=
  ⟨(C4_update_precedence [] "1" emptyUpd).1 rfl,
   (C4_update_precedence [sampleNoDue] "1" emptyUpd).2 sampleNoDue rfl rfl⟩

theorem applyUpdate_ok (t : Todo) (r : UpdateTodoRequest) (t' : Todo)
    (h : applyUpdate t r = .ok t') :
    t' = { t with
      text := match r.text with | some (some s) => s | _ => t.text,
      completed :=
        match r.completed with | some (some b) => b | _ => t.completed,
      dueDate := match r.dueDate with | none => t.dueDate | some v => v,
      tags := match r.tags with | some (some ss) => ss | _ => t.tags } := by
  rcases r with ⟨rt, rc, rd, rg⟩
  rcases rt with _ | (_ | s) <;> rcases rc with _ | (_ | b) <;>
    rcases rg with _ | (_ | ss) <;>
    simp_all [applyUpdate]

/-- C5: a successful update leaves every absent field at its prior value,
never changes `createdAt`, and distinguishes absence from explicit null
on `dueDate`: an explicit null clears the due date, an omitted `dueDate`
leaves it unchanged. -/
theorem C5_partial_update (store : Store) (id : String)
    (req : UpdateTodoRequest) (t t' : Todo) (store' : Store)
    (hfind : findTodo store id = some t)
    (hok : update_todo store id req = (.ok t', store')) :
    (req.text = none → t'.text = t.text) ∧
    (req.completed = none → t'.completed = t.completed) ∧
    (req.dueDate = none → t'.dueDate = t.dueDate) ∧
    (req.tags = none → t'.tags = t.tags) ∧
    t'.createdAt = t.createdAt ∧
    (∀ d, req.dueDate = some (some d) → t'.dueDate = some d) ∧
    (req.dueDate = some none → t'.dueDate = none) := by
  rw [update_todo, hfind] at hok
  by_cases he : req.isEmpty
  · simp [he] at hok
  · rcases happ : applyUpdate t req with e | t''
    · simp [he, happ] at hok
    · simp only [he, if_false, happ, Prod.mk.injEq, Except.ok.injEq,
        Bool.false_eq_true] at hok
      obtain ⟨rfl, rfl⟩ := hok
      have ht' := applyUpdate_ok t req t'' happ
      subst ht'
      refine ⟨?_, ?_, ?_, ?_, rfl, ?_, ?_⟩
      · intro h; simp [h]
      · intro h; simp [h]
      · intro h; simp [h]
      · intro h; simp [h]
      · intro d h; simp [h]
      · intro h; simp [h]

/-- Update request setting only `completed`. -/
def updC5 : UpdateTodoRequest :=
  { text := none, completed := some (some true), dueDate := none,
    tags := none }

/-- The record `sampleDueEarly` after `updC5`. -/
def updatedC5 : Todo := { sampleDueEarly with completed := true }

/-- Witness for C5: updating only `completed` keeps text, dueDate and
createdAt of the stored record. -/
theorem C5_witness :
    update_todo [sampleDueEarly] "2" updC5 = (.ok updatedC5, [updatedC5]) ∧
    updatedC5.text = sampleDueEarly.text ∧
    updatedC5.dueDate = sampleDueEarly.dueDate ∧
    updatedC5.createdAt = sampleDueEarly.createdAt := by
  have h := C5_partial_update [sampleDueEarly] "2" updC5 sampleDueEarly
    updatedC5 [updatedC5] rfl rfl
  exact ⟨rfl, h.1 rfl, h.2.2.1 rfl, h.2.2.2.2.1⟩

theorem findTodo_updateFirst (store : Store) (id : String) (t t' : Todo)
    (hfind : findTodo store id = some t) (hid : (t'.id == id) = true) :
    findTodo (updateFirst (fun _ => t') id store) id = some t' := by
  induction store with
  | nil => simp [findTodo] at hfind
  | cons y ys ih =>
    by_cases hy : (y.id == id) = true
    · simp [updateFirst, hy, findTodo, List.find?_cons_of_pos, hid]
    · have hf : findTodo ys id = some t := by
        simpa [findTodo, List.find?_cons_of_neg, hy] using hfind
      simp only [updateFirst, hy, if_false, Bool.false_eq_true]
      simpa [findTodo, List.find?_cons_of_neg, hy] using ih hf

theorem updateFirst_updateFirst (l : Store) (id : String) (a b : Todo)
    (hb : (b.id == id) = true) :
    updateFirst (fun _ => a) id (updateFirst (fun _ => b) id l) =
      updateFirst (fun _ => a) id l := by
  induction l with
  | nil => rfl
  | cons y ys ih =>
    by_cases hy : (y.id == id) = true
    · simp [updateFirst, hy, hb]
    · simp [updateFirst, hy, ih]

theorem updateFirst_find_self (store : Store) (id : String) (t : Todo)
    (hfind : findTodo store id = some t) :
    updateFirst (fun _ => t) id store = store := by
  induction store with
  | nil => rfl
  | cons y ys ih =>
    by_cases hy : (y.id == id) = true
    · have hty : t = y := by
        simpa [findTodo, List.find?_cons_of_pos, hy] using hfind.symm
      simp [updateFirst, hy, hty]
    · have hf : findTodo ys id = some t := by
        simpa [findTodo, List.find?_cons_of_neg, hy] using hfind
      simp [updateFirst, hy, ih hf]

/-- C8: toggling a present record flips `completed`, leaves every other
field unchanged, and toggling twice restores both the record and the
whole store. -/
theorem C8_toggle_involution (store : Store) (id : String) (t : Todo)
    (hfind : findTodo store id = some t) :
    (toggle_todo store id).fst = .ok { t with completed := !t.completed } ∧
    toggle_todo (toggle_todo store id).snd id = (.ok t, store) := by
  have hfind' : List.find? (fun r => r.id == id) store = some t := hfind
  have hid : (t.id == id) = true :=
    @List.find?_some Todo (fun r => r.id == id) t store hfind'
  set t' : Todo := { t with completed := !t.completed } with ht'
  have hid' : (t'.id == id) = true := hid
  have hsnd : (toggle_todo store id).snd = updateFirst (fun _ => t') id store := by
    simp [toggle_todo, hfind]
  have hfind2 : findTodo (updateFirst (fun _ => t') id store) id = some t' :=
    findTodo_updateFirst store id t t' hfind hid'
  have hback : ({ t' with completed := !t'.completed } : Todo) = t := by
    rw [ht']
    cases t
    simp
  constructor
  · simp [toggle_todo, hfind]
  · rw [hsnd]
    simp only [toggle_todo, hfind2]
    rw [hback, updateFirst_updateFirst store id t t' hid',
      updateFirst_find_self store id t hfind]

/-- Witness for C8: toggling a concrete record twice restores the store. -/
theorem C8_witness :
    (toggle_todo [sampleNoDue, sampleDueEarly] "2").fst =
      .ok { sampleDueEarly with completed := !sampleDueEarly.completed } ∧
    toggle_todo (toggle_todo [sampleNoDue, sampleDueEarly] "2").snd "2" =
      (.ok sampleDueEarly, [sampleNoDue, sampleDueEarly]) :=
  C8_toggle_involution [sampleNoDue, sampleDueEarly] "2" sampleDueEarly rfl

/-- First create request of the collision scenario. -/
def reqMilk : CreateTodoRequest :=
  { text := "buy milk", dueDate := none, tags := [] }

/-- Second create request of the collision scenario. -/
def reqRent : CreateTodoRequest :=
  { text := "pay rent", dueDate := none, tags := [] }

/-- The record produced by the first create of the collision scenario. -/
def milkTodo : Todo :=
  { id := "1700000000123", text := "buy milk", completed := false,
    dueDate := none, tags := [], createdAt := 10 }

/-- C6 fails on the code: `generate_id` is the millisecond clock, so two
create calls inside the same millisecond receive the same id, and the
second one cannot be inserted with a distinct id — its commit collides
with the primary key of the existing row and the call fails, contradicting
both the claim and the docstring of `generate_id` ("Generate a unique
ID"). -/
theorem C6_same_millisecond_collision :
    generate_id 1700000000123 = generate_id 1700000000123 ∧
    create_todo 1700000000123 10 [] reqMilk = (.ok milkTodo, [milkTodo]) ∧
    create_todo 1700000000123 11 [milkTodo] reqRent =
      (.error .serverError, [milkTodo]) :=
  ⟨rfl, rfl, rfl⟩

theorem validateCreateBody_ok_fields (parseDT : String → Option Int)
    (body : List (String × JVal)) (req : CreateTodoRequest)
    (hv : validateCreateBody parseDT body = .ok req) :
    vCreateText body = .ok req.text ∧
    vCreateDueDate parseDT body = .ok req.dueDate ∧
    vCreateTags body = .ok req.tags := by
  rcases h1 : vCreateText body with e | text
  · simp [validateCreateBody, h1] at hv
  · rcases h2 : vCreateDueDate parseDT body with e | dd
    · simp [validateCreateBody, h1, h2] at hv
    · rcases h3 : vCreateTags body with e | tg
      · simp [validateCreateBody, h1, h2, h3] at hv
      · simp only [validateCreateBody, h1, h2, h3, Except.ok.injEq] at hv
        subst hv
        exact ⟨rfl, rfl, rfl⟩

/-- C9: a successful create stores and returns a record with
`completed = false`, `createdAt` the creation time, `id` from
`generate_id`, `text`/`dueDate`/`tags` as supplied, with `tags`
defaulting to the empty sequence and `dueDate` to null when the keys are
omitted from the body; the new record is appended to the store. -/
theorem C9_create_defaults (parseDT : String → Option Int) (nowMs now : Int)
    (store : Store) (body : List (String × JVal)) (req : CreateTodoRequest)
    (r : Todo) (store' : Store)
    (hv : validateCreateBody parseDT body = .ok req)
    (hc : create_todo nowMs now store req = (.ok r, store')) :
    r.completed = false ∧ r.createdAt = now ∧ r.id = generate_id nowMs ∧
    r.text = req.text ∧ r.dueDate = req.dueDate ∧ r.tags = req.tags ∧
    (body.lookup "tags" = none → r.tags = []) ∧
    (body.lookup "dueDate" = none → r.dueDate = none) ∧
    store' = store ++ [r] := by
  unfold create_todo at hc
  by_cases hdup : store.any (fun t => t.id == generate_id nowMs)
  · rw [if_pos hdup] at hc
    simp at hc
  · rw [if_neg hdup, Prod.mk.injEq] at hc
    obtain ⟨h1, hs⟩ := hc
    have hr := Except.ok.inj h1
    subst hr
    refine ⟨rfl, rfl, rfl, rfl, rfl, rfl, ?_, ?_, hs.symm⟩
    · intro habs
      have h3 := (validateCreateBody_ok_fields parseDT body req hv).2.2
      rw [vCreateTags, habs] at h3
      simpa using h3.symm
    · intro habs
      have h2 := (validateCreateBody_ok_fields parseDT body req hv).2.1
      rw [vCreateDueDate, habs] at h2
      simpa using h2.symm

/-- Create request carrying only a text. -/
def reqC9 : CreateTodoRequest :=
  { text := "buy milk", dueDate := none, tags := [] }

/-- The record created from `reqC9` at id-clock 42 and creation time 7. -/
def createdC9 : Todo :=
  { id := generate_id 42, text := "buy milk", completed := false,
    dueDate := none, tags := [], createdAt := 7 }

/-- Witness for C9: creating from a body carrying only `text` yields the
defaults. -/
theorem C9_witness :
    create_todo 42 7 [] reqC9 = (.ok createdC9, [] ++ [createdC9]) ∧
    createdC9.completed = false ∧ createdC9.createdAt = 7 ∧
    createdC9.tags = [] ∧ createdC9.dueDate = none := by
  have h := C9_create_defaults isoSample 42 7 [] [("text", .str "buy milk")]
    reqC9 createdC9 ([] ++ [createdC9]) rfl rfl
  exact ⟨rfl, h.1, h.2.1, h.2.2.2.2.2.2.1 rfl, h.2.2.2.2.2.2.2.1 rfl⟩

theorem vUpdText_error (body : List (String × JVal)) (e : ApiError)
    (h : vUpdText body = .error e) : ∃ ve, e = .validationError ve := by
  unfold vUpdText at h
  split at h <;>
    first
      | exact ⟨_, (Except.error.inj h).symm⟩
      | simp at h
      | (split at h <;>
          first
            | exact ⟨_, (Except.error.inj h).symm⟩
            | simp at h)

theorem vUpdCompleted_error (body : List (String × JVal)) (e : ApiError)
    (h : vUpdCompleted body = .error e) : ∃ ve, e = .validationError ve := by
  unfold vUpdCompleted at h
  split at h <;>
    first
      | exact ⟨_, (Except.error.inj h).symm⟩
      | simp at h

theorem vUpdDueDate_error (parseDT : String → Option Int)
    (body : List (String × JVal)) (e : ApiError)
    (h : vUpdDueDate parseDT body = .error e) :
    ∃ ve, e = .validationError ve := by
  unfold vUpdDueDate at h
  split at h <;>
    first
      | exact ⟨_, (Except.error.inj h).symm⟩
      | simp at h
      | (split at h <;>
          first
            | exact ⟨_, (Except.error.inj h).symm⟩
            | simp at h)

theorem vUpdTags_error (body : List (String × JVal)) (e : ApiError)
    (h : vUpdTags body = .error e) : ∃ ve, e = .validationError ve := by
  unfold vUpdTags at h
  split at h <;>
    first
      | exact ⟨_, (Except.error.inj h).symm⟩
      | simp at h
      | (split at h <;>
          first
            | exact ⟨_, (Except.error.inj h).symm⟩
            | simp at h)

theorem validateUpdateBody_error_shape (parseDT : String → Option Int)
    (body : List (String × JVal)) (e : ApiError)
    (h : validateUpdateBody parseDT body = .error e) :
    ∃ ve, e = .validationError ve := by
  unfold validateUpdateBody at h
  split at h
  · exact ⟨_, (Except.error.inj h).symm⟩
  · rcases h1 : vUpdText body with e1 | text <;> rw [h1] at h
    · have he := Except.error.inj h
      subst he
      exact vUpdText_error body e1 h1
    · rcases h2 : vUpdCompleted body with e2 | comp <;> rw [h2] at h
      · have he := Except.error.inj h
        subst he
        exact vUpdCompleted_error body e2 h2
      · rcases h3 : vUpdDueDate parseDT body with e3 | dd <;> rw [h3] at h
        · have he := Except.error.inj h
          subst he
          exact vUpdDueDate_error parseDT body e3 h3
        · rcases h4 : vUpdTags body with e4 | tg <;> rw [h4] at h
          · have he := Except.error.inj h
            subst he
            exact vUpdTags_error body e4 h4
          · simp at h

/-- C10: when the update request body fails schema validation (extra key
forbidden by the strict schema, or a wrong-typed value), the result is a
`ValidationError` and the store is unchanged, even when the target id is
not in the store — body validation runs before the existence lookup, so
the outcome is never `NotFound` in that case. -/
theorem C10_body_validation_precedes_lookup (parseDT : String → Option Int)
    (store : Store) (id : String) (body : List (String × JVal))
    (e : ApiError) (hv : validateUpdateBody parseDT body = .error e)
    (_hid : findTodo store id = none) :
    updateEndpoint parseDT store id body = (.error e, store) ∧
    ∃ ve, e = .validationError ve := by
  refine ⟨?_, validateUpdateBody_error_shape parseDT body e hv⟩
  simp [updateEndpoint, hv]

/-- Witness for C10: updating a missing id with an unknown body field
gives the validation error, not `NotFound`, and leaves the store
unchanged. -/
theorem C10_witness :
    updateEndpoint isoSample [sampleNoDue] "99"
        [("unknownField", .num 1)] =
      (.error (.validationError (.invalidField "unknownField")),
        [sampleNoDue]) ∧
    ∃ ve, (ApiError.validationError (.invalidField "unknownField")) =
      .validationError ve :=
  C10_body_validation_precedes_lookup isoSample [sampleNoDue] "99"
    [("unknownField", .num 1)] _ rfl rfl

theorem vUpdText_ok_bounds (body : List (String × JVal)) (s : String)
    (h : vUpdText body = .ok (some (some s))) :
    1 ≤ s.length ∧ s.length ≤ 500 := by
  unfold vUpdText at h
  split at h <;> first
    | simp at h
    | (split at h
       · rename_i hb
         obtain rfl : _ = s := by simpa using h
         exact hb
       · simp at h)

theorem vCreateText_ok_bounds (body : List (String × JVal)) (s : String)
    (h : vCreateText body = .ok s) : 1 ≤ s.length ∧ s.length ≤ 500 := by
  unfold vCreateText at h
  split at h <;> first
    | simp at h
    | (split at h
       · rename_i hb
         obtain rfl : _ = s := by simpa using h
         exact hb
       · simp at h)

theorem validateUpdateBody_ok_fields (parseDT : String → Option Int)
    (body : List (String × JVal)) (req : UpdateTodoRequest)
    (hv : validateUpdateBody parseDT body = .ok req) :
    vUpdText body = .ok req.text ∧
    vUpdCompleted body = .ok req.completed ∧
    vUpdDueDate parseDT body = .ok req.dueDate ∧
    vUpdTags body = .ok req.tags := by
  unfold validateUpdateBody at hv
  split at hv
  · simp at hv
  · rcases h1 : vUpdText body with e1 | text <;> rw [h1] at hv
    · simp at hv
    · rcases h2 : vUpdCompleted body with e2 | comp <;> rw [h2] at hv
      · simp at hv
      · rcases h3 : vUpdDueDate parseDT body with e3 | dd <;> rw [h3] at hv
        · simp at hv
        · rcases h4 : vUpdTags body with e4 | tg <;> rw [h4] at hv
          · simp at hv
          · simp only [Except.ok.injEq] at hv
            subst hv
            exact ⟨rfl, rfl, rfl, rfl⟩

theorem mem_updateFirst (f : Todo → Todo) (id : String) (l : Store)
    (r : Todo) (hr : r ∈ updateFirst f id l) :
    r ∈ l ∨ ∃ x, x ∈ l ∧ r = f x := by
  induction l with
  | nil => simp [updateFirst] at hr
  | cons y ys ih =>
    by_cases hy : (y.id == id) = true
    · rw [updateFirst, if_pos hy] at hr
      rcases List.mem_cons.mp hr with rfl | hmem
      · exact Or.inr ⟨y, List.mem_cons_self y ys, rfl⟩
      · exact Or.inl (List.mem_cons_of_mem y hmem)
    · rw [updateFirst, if_neg hy] at hr
      rcases List.mem_cons.mp hr with rfl | hmem
      · exact Or.inl (List.mem_cons_self r ys)
      · rcases ih hmem with hmem' | ⟨x, hx, rfl⟩
        · exact Or.inl (List.mem_cons_of_mem y hmem')
        · exact Or.inr ⟨x, List.mem_cons_of_mem y hx, rfl⟩

theorem applyUpdate_ok_text_ne (t : Todo) (req : UpdateTodoRequest)
    (r : Todo) (h : applyUpdate t req = .ok r) : req.text ≠ some none := by
  intro hrt
  rcases req with ⟨rt, rc, rd, rg⟩
  simp only at hrt
  subst hrt
  simp [applyUpdate] at h

theorem updateEndpoint_text_invariant (parseDT : String → Option Int)
    (store : Store) (id : String) (body : List (String × JVal))
    (res : Except ApiError Todo) (store' : Store)
    (hok : updateEndpoint parseDT store id body = (res, store'))
    (hinv : ∀ r ∈ store, 1 ≤ r.text.length ∧ r.text.length ≤ 500) :
    ∀ r ∈ store', 1 ≤ r.text.length ∧ r.text.length ≤ 500 := by
  unfold updateEndpoint at hok
  split at hok
  · cases hok
    exact hinv
  · rename_i req hv
    unfold update_todo at hok
    split at hok
    · cases hok
      exact hinv
    · rename_i t hf
      split at hok
      · cases hok
        exact hinv
      · split at hok
        · cases hok
          exact hinv
        · rename_i tU haU
          cases hok
          intro r hr
          rcases mem_updateFirst _ id store r hr with hmem | ⟨x, _, hrx⟩
          · exact hinv r hmem
          · subst hrx
            have ht' := applyUpdate_ok t req r haU
            subst ht'
            rcases hrt : req.text with _ | rt
            · simpa [hrt] using hinv t (List.mem_of_find?_eq_some hf)
            · rcases rt with _ | s2
              · exact absurd hrt (applyUpdate_ok_text_ne t req _ haU)
              · have h1 := (validateUpdateBody_ok_fields parseDT body req hv).1
                rw [hrt] at h1
                have hb := vUpdText_ok_bounds body s2 h1
                simpa [hrt] using hb

theorem createEndpoint_text_invariant (parseDT : String → Option Int)
    (nowMs now : Int) (store : Store) (body : List (String × JVal))
    (res : Except ApiError Todo) (store' : Store)
    (hok : createEndpoint parseDT nowMs now store body = (res, store'))
    (hinv : ∀ r ∈ store, 1 ≤ r.text.length ∧ r.text.length ≤ 500) :
    ∀ r ∈ store', 1 ≤ r.text.length ∧ r.text.length ≤ 500 := by
  unfold createEndpoint at hok
  split at hok
  · cases hok
    exact hinv
  · rename_i req hv
    unfold create_todo at hok
    dsimp only at hok
    split at hok
    · cases hok
      exact hinv
    · cases hok
      intro r hr
      rcases List.mem_append.mp hr with hmem | hmem
      · exact hinv r hmem
      · have hr' := List.mem_singleton.mp hmem
        subst hr'
        have h1 := (validateCreateBody_ok_fields parseDT body req hv).1
        have hb := vCreateText_ok_bounds body req.text h1
        simpa using hb

/-- C7: create validation fails with a `ValidationError` exactly when the
raw text string has length outside [1,500] (no trimming; other fields
well-formed); an update whose body carries an out-of-bounds text string
fails validation with the store unchanged, before any value is
overwritten; and both endpoints preserve the invariant that every stored
text has length in [1,500]. -/
theorem C7_text_length_bounds (parseDT : String → Option Int) :
    (∀ s : String,
      ((∃ ve, validateCreateBody parseDT [("text", JVal.str s)] =
          .error (.validationError ve)) ↔
        (s.length < 1 ∨ 500 < s.length))) ∧
    (∀ body : List (String × JVal), ∀ s : String,
      body.lookup "text" = some (JVal.str s) →
      s.length < 1 ∨ 500 < s.length →
      ∀ store : Store, ∀ id : String,
        ∃ ve, updateEndpoint parseDT store id body =
          (.error (.validationError ve), store)) ∧
    (∀ store store' : Store, ∀ id : String, ∀ body : List (String × JVal),
      ∀ res : Except ApiError Todo,
      updateEndpoint parseDT store id body = (res, store') →
      (∀ r ∈ store, 1 ≤ r.text.length ∧ r.text.length ≤ 500) →
      ∀ r ∈ store', 1 ≤ r.text.length ∧ r.text.length ≤ 500) ∧
    (∀ nowMs now : Int, ∀ store store' : Store,
      ∀ body : List (String × JVal), ∀ res : Except ApiError Todo,
      createEndpoint parseDT nowMs now store body = (res, store') →
      (∀ r ∈ store, 1 ≤ r.text.length ∧ r.text.length ≤ 500) →
      ∀ r ∈ store', 1 ≤ r.text.length ∧ r.text.length ≤ 500) := by
  refine ⟨?_, ?_, ?_, ?_⟩
  · intro s
    by_cases hb : 1 ≤ s.length ∧ s.length ≤ 500
    · have hcomp : validateCreateBody parseDT [("text", JVal.str s)] =
          .ok { text := s, dueDate := none, tags := [] } := by
        simp [validateCreateBody, vCreateText, vCreateDueDate, vCreateTags,
          List.lookup, hb]
      constructor
      · rintro ⟨ve, hve⟩
        rw [hcomp] at hve
        simp at hve
      · intro hlen
        exfalso
        omega
    · have hcomp : validateCreateBody parseDT [("text", JVal.str s)] =
          .error (.validationError (.invalidField "text")) := by
        simp [validateCreateBody, vCreateText, List.lookup, hb]
      constructor
      · intro _
        omega
      · intro _
        exact ⟨_, hcomp⟩
  · intro body s hlk hlen store id
    rcases hv : validateUpdateBody parseDT body with e | req
    · obtain ⟨ve, rfl⟩ := validateUpdateBody_error_shape parseDT body e hv
      exact ⟨ve, by simp [updateEndpoint, hv]⟩
    · exfalso
      have h1 := (validateUpdateBody_ok_fields parseDT body req hv).1
      have hnb : ¬ (1 ≤ s.length ∧ s.length ≤ 500) := by omega
      have hbad : vUpdText body =
          .error (.validationError (.invalidField "text")) := by
        simp [vUpdText, hlk, hnb]
      rw [hbad] at h1
      simp at h1
  · intro store store' id body res hok hinv
    exact updateEndpoint_text_invariant parseDT store id body res store'
      hok hinv
  · intro nowMs now store store' body res hok hinv
    exact createEndpoint_text_invariant parseDT nowMs now store body res
      store' hok hinv

/-- The record `sampleNoDue` after an update setting `text := "rest"`. -/
def updatedC7 : Todo := { sampleNoDue with text := "rest" }

/-- Witness for C7: the empty text string is rejected at creation, and a
concrete update run preserves the stored text-length invariant. -/
theorem C7_witness :
    ((∃ ve, validateCreateBody isoSample [("text", JVal.str "")] =
        .error (.validationError ve)) ↔
      (("" : String).length < 1 ∨ 500 < ("" : String).length)) ∧
    (∀ r ∈ [updatedC7], 1 ≤ r.text.length ∧ r.text.length ≤ 500) := by
  refine ⟨(C7_text_length_bounds isoSample).1 "", ?_⟩
  exact (C7_text_length_bounds isoSample).2.2.1 [sampleNoDue] [updatedC7]
    "1" [("text", JVal.str "rest")] (.ok updatedC7) rfl (by decide)
